import Mathlib

/-!
Verification development for the ai-production repository
(`src/ai-services/services/portfolio_analyzer.py` and
`src/ai-services/services/stock_predictor.py`).

Numbers are modelled by `ℚ` (the Python code computes with IEEE floats; the
claims under study are exact threshold/shape/sign properties, for which exact
rational arithmetic is the faithful idealisation).  A pandas `NaN` cell is
modelled by `Option.none`; `dropna` keeps exactly the rows in which every
derived column is `some`.  The square root (used only inside `std`-style
quantities whose numeric value no claim depends on) is an explicit function
parameter, so every definition stays executable.
-/

namespace AIServices

/-- Arithmetic mean, as `pandas.Series.mean` / `numpy.mean` (division by zero
yields the junk value `0`; the code only hits that case where pandas would
produce `NaN`, and no claim reads the value there). -/
def mean (xs : List ℚ) : ℚ := xs.sum / xs.length

/-- Sample variance with `ddof = 1`, as `pandas.Series.var` / `.std() ** 2`. -/
def sampleVar (xs : List ℚ) : ℚ :=
  (xs.map (fun x => (x - mean xs) ^ 2)).sum / ((xs.length : ℚ) - 1)

/-- Population central moment of order `k` (used by `scipy.stats.skew` and
`scipy.stats.kurtosis`, which default to biased moments). -/
def centralMoment (k : ℕ) (xs : List ℚ) : ℚ :=
  (xs.map (fun x => (x - mean xs) ^ k)).sum / xs.length

/-- Maximum of a list, as Python's built-in `max` on a nonempty list. -/
def listMax : List ℚ → ℚ
  | [] => 0
  | x :: xs => xs.foldl max x

/-- Cumulative products with accumulator, as `pandas.Series.cumprod`. -/
def cumprodAux (acc : ℚ) : List ℚ → List ℚ
  | [] => []
  | y :: ys => (acc * y) :: cumprodAux (acc * y) ys

/-- `pandas.Series.cumprod`. -/
def cumprod (xs : List ℚ) : List ℚ := cumprodAux 1 xs

/-- Running maxima with accumulator, as `Series.expanding().max()`. -/
def runningMaxAux (m : ℚ) : List ℚ → List ℚ
  | [] => []
  | y :: ys => max m y :: runningMaxAux (max m y) ys

/-- `Series.expanding().max()`: element `t` is the maximum of elements `0..t`. -/
def runningMax : List ℚ → List ℚ
  | [] => []
  | x :: xs => x :: runningMaxAux x xs

/-- `portfolio_analyzer.calculate_risk_metrics` lines 197-198:
`cumulative_returns = (1 + returns).cumprod()`. -/
def cum_returns (returns : List ℚ) : List ℚ :=
  cumprod (returns.map (fun r => 1 + r))

/-- An IEEE double as it matters to the drawdown computation: a finite
(exactly represented) rational, one of the two infinities, or `NaN`. -/
inductive Ext where
  | nan
  | ninf
  | fin (q : ℚ)
  | pinf
  deriving DecidableEq

/-- IEEE comparison `a <= b`: every comparison involving `NaN` is `False`. -/
def ext_le : Ext → Ext → Bool
  | .nan, _ => false
  | _, .nan => false
  | .ninf, _ => true
  | _, .ninf => false
  | .fin p, .fin q => decide (p ≤ q)
  | .fin _, .pinf => true
  | .pinf, .pinf => true
  | .pinf, .fin _ => false

/-- IEEE comparison `t < v` of a rational threshold against a float
(`NaN` compares `False`). -/
def ext_lt (t : ℚ) : Ext → Bool
  | .nan => false
  | .ninf => false
  | .pinf => true
  | .fin q => decide (t < q)

/-- `abs` of a float (`abs(NaN) = NaN`). -/
def ext_abs : Ext → Ext
  | .nan => .nan
  | .ninf => .pinf
  | .pinf => .pinf
  | .fin q => .fin |q|

/-- Binary minimum of floats; the `NaN` rows are filtered out before pandas'
`skipna` reduction ever reaches this, so `NaN` operands (unreachable here)
simply propagate. -/
def ext_min : Ext → Ext → Ext
  | .nan, _ => .nan
  | _, .nan => .nan
  | .ninf, _ => .ninf
  | _, .ninf => .ninf
  | .fin p, .fin q => .fin (min p q)
  | .fin p, .pinf => .fin p
  | .pinf, b => b

/-- One entry `(c - m) / m` of the drawdown series under IEEE semantics:
`0/0` is `NaN`, a nonzero numerator over zero is `±inf` (running maxima are
positive zeros), and otherwise the quotient is exact. -/
def dd_entry (c m : ℚ) : Ext :=
  if m = 0 then
    (if c - m = 0 then Ext.nan else if 0 < c - m then Ext.pinf else Ext.ninf)
  else Ext.fin ((c - m) / m)

/-- Lines 197-199: the drawdown series
`(cumulative_returns - rolling_max) / rolling_max`, entry by entry with the
IEEE division above (the cumulative path hits exact zero when a return is
exactly `-1`, making the entry `0/0 = NaN` from there on). -/
def drawdowns (returns : List ℚ) : List Ext :=
  List.zipWith dd_entry (cum_returns returns)
    (runningMax (cum_returns returns))

/-- `pandas.Series.min()` with the default `skipna=True`: the minimum of the
non-`NaN` entries, or `NaN` when every entry is `NaN`. -/
def dd_min (l : List Ext) : Ext :=
  match l.filter (fun v => v ≠ Ext.nan) with
  | [] => Ext.nan
  | v :: vs => vs.foldl ext_min v

/-- Line 200: `max_drawdown = drawdown.min()`. -/
def max_drawdown (returns : List ℚ) : Ext := dd_min (drawdowns returns)

/-- The ascending sort of the return series (`np.percentile` sorts its
input). -/
def sorted_rets (returns : List ℚ) : List ℚ := returns.insertionSort (· ≤ ·)

/-- The fractional order-statistic position `(n - 1) * q / 100` used by
`np.percentile(..., 5)` with the default linear interpolation. -/
def pct5_pos (returns : List ℚ) : ℚ := ((returns.length : ℚ) - 1) * (5 / 100)

/-- Lower interpolation index `floor((n - 1) * 5 / 100)`. -/
def pct5_lo (returns : List ℚ) : ℕ := (⌊pct5_pos returns⌋).toNat

/-- Upper interpolation index `ceil((n - 1) * 5 / 100)`. -/
def pct5_hi (returns : List ℚ) : ℕ := (⌈pct5_pos returns⌉).toNat

/-- Line 203: `var_95 = np.percentile(returns, 5)`, numpy's default linear
interpolation `a[lo] + frac * (a[hi] - a[lo])` between the order statistics
around the fractional position. -/
def var_95_calc (returns : List ℚ) : ℚ :=
  (sorted_rets returns).getD (pct5_lo returns) 0 +
    (pct5_pos returns - pct5_lo returns) *
      ((sorted_rets returns).getD (pct5_hi returns) 0 -
        (sorted_rets returns).getD (pct5_lo returns) 0)

/-- Line 206: `es_95 = returns[returns <= var_95].mean()` (mean of the
sub-series at or below the 5th percentile). -/
def es_95_calc (returns : List ℚ) : ℚ :=
  mean (returns.filter (fun x => x ≤ var_95_calc returns))

/-- The record built by `calculate_risk_metrics` (lines 215-225): the nine
fields of the returned dict. -/
structure RiskMetrics where
  mean_return : ℚ
  volatility : ℚ
  sharpe_ratio : ℚ
  max_drawdown : Ext
  var_95 : ℚ
  expected_shortfall : ℚ
  skewness : ℚ
  kurtosis : ℚ
  beta : ℚ
  deriving DecidableEq

/-- `risk_free_rate = 0.04` (`PortfolioAnalyzer.__init__`, line 16). -/
def risk_free_rate : ℚ := 4 / 100

/-- `PortfolioAnalyzer.calculate_risk_metrics` (lines 183-225).  Returns
`none` for the `len(returns) < 30` early `return {}` and otherwise `some`
record with every field computed as in the source.  `sqrt` abstracts
`np.sqrt` / the square root inside `.std()` (irrational in general); no
claim depends on its values.  `scipy.stats.skew` is `m3 / m2^(3/2)` and
`scipy.stats.kurtosis` is `m4 / m2^2 - 3` (biased, Fisher). -/
def calculate_risk_metrics (sqrt : ℚ → ℚ) (returns : List ℚ) :
    Option RiskMetrics :=
  if returns.length < 30 then none
  else
    let volatility := sqrt (sampleVar returns) * sqrt 252
    let excess := returns.map (fun r => r - risk_free_rate / 252)
    some
      { mean_return := mean returns * 252
        volatility := volatility
        sharpe_ratio := if 0 < volatility then mean excess * 252 / volatility else 0
        max_drawdown := max_drawdown returns
        var_95 := var_95_calc returns
        expected_shortfall := es_95_calc returns
        skewness := centralMoment 3 returns /
          (centralMoment 2 returns * sqrt (centralMoment 2 returns))
        kurtosis := centralMoment 4 returns / centralMoment 2 returns ^ 2 - 3
        beta := 1 }

/-- The record returned by `assess_portfolio_risk` (lines 377-382), minus the
`recommendations` list (derived from `risk_factors` downstream). -/
structure RiskAssessment where
  risk_score : ℕ
  risk_level : String
  risk_factors : List String
  deriving DecidableEq

/-- `PortfolioAnalyzer.assess_portfolio_risk` (lines 299-382), translated
branch for branch.  `portfolio_risk` is the (possibly empty, hence `Option`)
dict produced by `calculate_risk_metrics`; `.get(key, 0)` is `getD 0` on the
projections.  `sector_values` are `sector_allocation.values()`;
`corr_upper` are the strict-upper-triangle entries of the correlation matrix
(`np.triu_indices_from(..., k=1)`), whose empty-list mean is `NaN` in numpy —
every comparison against `NaN` is `False`, which the junk value `0` of
`mean []` reproduces on the thresholds `0.7` and `0.5`.  The intermediate
`risk_level = 'aggressive'` writes inside the volatility and drawdown
branches are carried faithfully in the middle component of the result;
the final score-threshold overwrite (lines 370-375) happens in
`assess_portfolio_risk` below. -/
def assess_scores (portfolio_risk : Option RiskMetrics)
    (sector_values : List ℚ) (corr_upper : List ℚ) : ℕ × String × List String :=
  let volatility := (portfolio_risk.map (·.volatility)).getD 0
  let s0 : ℕ := 0
  let level0 : String := "moderate"
  -- volatility assessment (lines 306-318)
  let (s1, level1, f1) :=
    if 4 / 10 < volatility then
      (s0 + 3, "aggressive", ["High volatility (>40%)"])
    else if 25 / 100 < volatility then
      (s0 + 2, level0, ["Moderate-high volatility (25-40%)"])
    else if 15 / 100 < volatility then
      (s0 + 1, level0, ["Moderate volatility (15-25%)"])
    else (s0, level0, ["Low volatility (<15%)"])
  -- drawdown assessment (lines 320-333); the stored max_drawdown is a
  -- float that can be NaN (see `max_drawdown`), and every `>` against NaN
  -- is False, so a NaN drawdown falls through to the last branch
  let md := ext_abs ((portfolio_risk.map (·.max_drawdown)).getD (Ext.fin 0))
  let (s2, level2, f2) :=
    if ext_lt (35 / 100) md then
      (s1 + 3, "aggressive", f1 ++ ["Very high maximum drawdown (>35%)"])
    else if ext_lt (20 / 100) md then
      (s1 + 2, level1, f1 ++ ["High maximum drawdown (20-35%)"])
    else if ext_lt (10 / 100) md then
      (s1 + 1, level1, f1 ++ ["Moderate maximum drawdown (10-20%)"])
    else (s1, level1, f1 ++ ["Low maximum drawdown (<10%)"])
  -- sector concentration (lines 335-344)
  let max_sector_weight :=
    if sector_values ≠ [] then listMax sector_values / sector_values.sum else 0
  let (s3, f3) :=
    if 5 / 10 < max_sector_weight then
      (s2 + 2, f2 ++ ["High sector concentration (>50% in one sector)"])
    else if 3 / 10 < max_sector_weight then
      (s2 + 1, f2 ++ ["Moderate sector concentration (30-50% in one sector)"])
    else (s2, f2 ++ ["Well-diversified across sectors"])
  -- correlation risk (lines 346-355)
  let avg_correlation := mean corr_upper
  let (s4, f4) :=
    if 7 / 10 < avg_correlation then
      (s3 + 2, f3 ++ ["High correlation between holdings (>0.7)"])
    else if 5 / 10 < avg_correlation then
      (s3 + 1, f3 ++ ["Moderate correlation between holdings (0.5-0.7)"])
    else (s3, f3 ++ ["Low correlation between holdings (<0.5)"])
  -- Sharpe ratio assessment (lines 357-367)
  let sharpe := (portfolio_risk.map (·.sharpe_ratio)).getD 0
  let (s5, f5) :=
    if 1 < sharpe then (s4, f4 ++ ["Excellent risk-adjusted returns (Sharpe > 1.0)"])
    else if 5 / 10 < sharpe then (s4, f4 ++ ["Good risk-adjusted returns (Sharpe 0.5-1.0)"])
    else if 0 < sharpe then (s4, f4 ++ ["Positive risk-adjusted returns (Sharpe 0-0.5)"])
    else (s4 + 1, f4 ++ ["Poor risk-adjusted returns (Sharpe < 0)"])
  (s5, level2, f5)

/-- The final threshold block of `assess_portfolio_risk` (lines 370-375):
`risk_level` is overwritten from `risk_score` alone. -/
def classify_level (s : ℕ) : String :=
  if 6 ≤ s then "aggressive" else if 3 ≤ s then "moderate" else "conservative"

/-- `PortfolioAnalyzer.assess_portfolio_risk` (lines 299-382): accumulate the
five factor blocks (`assess_scores`, which also carries the intermediate
`risk_level` writes), then overwrite `risk_level` from the final score
thresholds and return the dict. -/
def assess_portfolio_risk (portfolio_risk : Option RiskMetrics)
    (sector_values : List ℚ) (corr_upper : List ℚ) : RiskAssessment :=
  let r := assess_scores portfolio_risk sector_values corr_upper
  { risk_score := r.1, risk_level := classify_level r.1, risk_factors := r.2.2 }

/-! ## Model registry and training (`stock_predictor.train_model`, lines 132-192) -/

/-- The in-memory artifact stored at `self.models[model_key]` (lines 168-173):
evaluation metrics and the training timestamp (the fitted estimator and the
scaler object carry no data the claims read, beyond what the metrics and the
predictor model below capture). -/
structure ModelArtifact where
  mse : ℚ
  mae : ℚ
  trained_at : ℕ
  deriving DecidableEq

/-- `self.models`, a dict keyed by `model_key = f"{symbol}_{model_type}"`.
Association-list representation; `setArtifact` is dict assignment (lookup
semantics: the new binding shadows/replaces any previous one for the key). -/
def setArtifact (reg : List (String × ModelArtifact)) (key : String)
    (a : ModelArtifact) : List (String × ModelArtifact) :=
  (key, a) :: reg.filter (fun p => p.1 ≠ key)

/-- Outcome of `train_model`: the success dict (lines 178-183) or the error
dict assembled in the `except` handler (lines 187-192). -/
inductive TrainResult where
  | success (mse mae : ℚ)
  | error (msg : String)
  deriving DecidableEq

/-- `StockPredictor.train_model` (lines 132-192) as a transition on the
registry.  External, fallible library stages are explicit parameters:
`num_windows` is `len(X)` after `get_stock_data` + `prepare_data`
(`none` when either raised), and `fit_eval` is the `(mse, mae)` pair when
`model.fit` / `model.predict` / the metric computations all succeed (`none`
when any of them raised).  Every raise lands in the `except` block, which
returns the error dict without touching `self.models`; the registry write
(line 168) happens only after evaluation has produced the metrics. -/
def train_model (reg : List (String × ModelArtifact)) (symbol model_type : String)
    (num_windows : Option ℕ) (fit_eval : Option (ℚ × ℚ)) (now : ℕ) :
    List (String × ModelArtifact) × TrainResult :=
  match num_windows with
  | none => (reg, .error "data preparation raised")
  | some n =>
    if n < 100 then (reg, .error "Insufficient data for training")
    else if model_type = "linear" ∨ model_type = "ensemble" then
      match fit_eval with
      | none => (reg, .error "fit or evaluation raised")
      | some (mse, mae) =>
        (setArtifact reg (symbol ++ "_" ++ model_type) ⟨mse, mae, now⟩,
         .success mse mae)
    else (reg, .error ("Unsupported model type: " ++ model_type))

/-! ## Forecasting (`stock_predictor.predict`, lines 194-257)

The sklearn objects are modelled with their fitted dimensions, because their
entry checks (`predict` validates the feature count against the count seen at
`fit`; `check_array` inside `inverse_transform` demands at least one sample,
and the in-place `(X - min_) / scale_` update broadcasts only when the column
count equals the fitted feature count) decide whether the Python call raises
— and every raise is turned into the error dict by the `except` block. -/

/-- A fitted sklearn regressor: `n_features_in` is the width seen at `fit`
(for the linear/ensemble pipeline: the flattened window,
`lookback * len(features)`), and `eval` the learned prediction function. -/
structure FittedModel where
  n_features_in : ℕ
  eval : List ℚ → ℚ

/-- `model.predict` on a single row: sklearn raises (here: `none`) unless the
row width equals the width the estimator was fitted on. -/
def model_predict (m : FittedModel) (x : List ℚ) : Option ℚ :=
  if x.length = m.n_features_in then some (m.eval x) else none

/-- A fitted `MinMaxScaler`: the per-column affine parameters and the fitted
feature count (14, from the `features` list of `prepare_data`). -/
structure FittedScaler where
  n_features : ℕ
  mins : List ℚ
  scales : List ℚ

/-- `scaler.transform` (`X * scale_ + min_` per column): requires at least
one sample and the fitted width. -/
def scaler_transform (s : FittedScaler) (rows : List (List ℚ)) :
    Option (List (List ℚ)) :=
  if rows.length = 0 then none
  else if rows.all (fun r => r.length = s.n_features) then
    some (rows.map (fun r =>
      List.zipWith (fun x p => x * p.2 + p.1) r (s.mins.zip s.scales)))
  else none

/-- `scaler.inverse_transform`: `check_array` requires at least one sample,
and the in-place `(X - min_) / scale_` broadcasts only when the column count
equals the fitted feature count — any other shape raises (`none`). -/
def scaler_inverse (s : FittedScaler) (rows : List (List ℚ)) :
    Option (List (List ℚ)) :=
  if rows.length = 0 then none
  else if rows.all (fun r => r.length = s.n_features) then
    some (rows.map (fun r =>
      List.zipWith (fun x p => (x - p.1) / p.2) r (s.mins.zip s.scales)))
  else none

/-- The autoregressive loop of `predict` (lines 225-234): predict from
`current`, then `np.roll(current, -1)` and overwrite the last slot with the
prediction.  A raise inside `model.predict` aborts the whole call. -/
def predict_loop (m : FittedModel) (current : List ℚ) : ℕ → Option (List ℚ)
  | 0 => some []
  | d + 1 =>
    match model_predict m current with
    | none => none
    | some p =>
      match predict_loop m (current.drop 1 ++ [p]) d with
      | none => none
      | some ps => some (p :: ps)

/-- `StockPredictor.predict` (lines 194-257) after the model has been loaded
and the recent data scaled: start from `scaled_data[-1:]` (the *single* last
scaled row, line 227), run the loop, inverse-transform the predictions
reshaped to one column (lines 237-239), and pair them with
`last_date + i + 1` (lines 242-243, dates as day offsets).  Any library
raise is the `except` path: the error dict, modelled as `none`. -/
def predict (m : FittedModel) (s : FittedScaler) (scaled_data : List (List ℚ))
    (last_date : ℕ) (days : ℕ) : Option (List (ℕ × ℚ)) :=
  match scaled_data.getLast? with
  | none => none
  | some lastRow =>
    match predict_loop m lastRow days with
    | none => none
    | some preds =>
      match scaler_inverse s (preds.map (fun p => [p])) with
      | none => none
      | some inv =>
        some (List.zipWith (fun i r => (last_date + i + 1, r.getD 0 0))
          (List.range days) inv)

/-- The `features` list of `prepare_data` (lines 118-120) has 14 entries. -/
def num_features : ℕ := 14

/-- `lookback = 60` (line 115). -/
def lookback : ℕ := 60

/-- The estimator produced by `train_model`: both the linear and the ensemble
branch fit on `X_train.reshape(X_train.shape[0], -1)` (lines 148-156), i.e.
on rows of width `lookback * num_features = 840`.  The learned coefficients
are irrelevant to the claims; any function of the right arity represents
them. -/
def trained_model : FittedModel :=
  { n_features_in := lookback * num_features, eval := fun _ => 0 }

/-- The scaler stored with the artifact: `self.scaler` was fitted in
`prepare_data` on the 14 feature columns (line 123). -/
def trained_scaler : FittedScaler :=
  { n_features := num_features
    mins := List.replicate num_features 0
    scales := List.replicate num_features 1 }

/-- `recent_data[features].tail(60)`: 60 rows of 14 features (any concrete
values; the claims are shape-driven). -/
def recent_rows : List (List ℚ) := List.replicate 60 (List.replicate 14 1)

/-- The full `predict` call as wired by the source: scale the recent rows
with the artifact's scaler (line 221), then run the prediction/inverse/date
assembly. -/
def predict_as_trained (days : ℕ) : Option (List (ℕ × ℚ)) :=
  match scaler_transform trained_scaler recent_rows with
  | none => none
  | some scaled => predict trained_model trained_scaler scaled 0 days

/-- Line 256 of `stock_predictor.predict`: the reported confidence is the
literal `0.75` (commented `# Mock confidence score` in the source). -/
def predict_confidence : ℚ := 3 / 4

/-- Modelled from the spec (§4.4): the confidence the specification
prescribes, `max(0.1, 1 - mae / mean_close)`; it appears in the repository
only in the stray duplicate `stock_predictor 2.py` (line 215), not in the
module the service imports. -/
def spec_confidence (mae mean_close : ℚ) : ℚ :=
  max (1 / 10) (1 - mae / mean_close)

/-! ## Indicator augmentation (`stock_predictor.get_stock_data`, lines 80-106)

Each derived column is a function from the row index to `Option ℚ`;
`none` is pandas `NaN`.  `dropna()` (line 106) keeps exactly the rows in
which every column is `some`.  The raw OHLCV columns are NaN-free by
construction, so only the derived columns decide which rows survive. -/

/-- The window `xs[i+1-w .. i]` of a rolling computation. -/
def window (w : ℕ) (xs : List ℚ) (i : ℕ) : List ℚ :=
  (xs.take (i + 1)).drop (i + 1 - w)

/-- `Series.rolling(window=w).mean()` at row `i` (default
`min_periods = w`: `NaN` until `w` values are available). -/
def sma_at (w : ℕ) (xs : List ℚ) (i : ℕ) : Option ℚ :=
  if w ≤ i + 1 ∧ i < xs.length then some ((window w xs i).sum / w) else none

/-- `Series.diff()` at row `i`: `NaN` at row 0. -/
def diff_at (xs : List ℚ) (i : ℕ) : Option ℚ :=
  if 1 ≤ i ∧ i < xs.length then some (xs.getD i 0 - xs.getD (i - 1) 0) else none

/-- Element `i` of `delta.where(delta > 0, 0)` (line 85): the positive part
of the delta; the `NaN` at row 0 fails the `> 0` test, so `.where` replaces
it by `0` as well. -/
def gain_raw_at (xs : List ℚ) (i : ℕ) : ℚ :=
  match diff_at xs i with
  | none => 0
  | some d => if 0 < d then d else 0

/-- Element `i` of `(-delta.where(delta < 0, 0))` (line 86). -/
def loss_raw_at (xs : List ℚ) (i : ℕ) : ℚ :=
  match diff_at xs i with
  | none => 0
  | some d => if d < 0 then -d else 0

/-- `gain = (...).rolling(window=14).mean()` at row `i`: the raw gain series
has no `NaN` (`.where` filled row 0), so the mean exists from row 13 on. -/
def avg_gain_at (xs : List ℚ) (i : ℕ) : Option ℚ :=
  if 13 ≤ i ∧ i < xs.length then
    some (((List.range 14).map (fun k => gain_raw_at xs (i - 13 + k))).sum / 14)
  else none

/-- `loss = (...).rolling(window=14).mean()` at row `i`. -/
def avg_loss_at (xs : List ℚ) (i : ℕ) : Option ℚ :=
  if 13 ≤ i ∧ i < xs.length then
    some (((List.range 14).map (fun k => loss_raw_at xs (i - 13 + k))).sum / 14)
  else none

/-- `RSI = 100 - (100 / (1 + rs))` with `rs = gain / loss` (lines 87-88),
under IEEE float semantics: `loss = 0 < gain` gives `rs = inf` and
`RSI = 100 - 100/inf = 100` exactly; `gain = loss = 0` gives `rs = NaN`
hence `RSI = NaN` (the row is later dropped); otherwise the arithmetic is
exact.  The same three lines appear verbatim in
`portfolio_analyzer.get_real_stock_data` (lines 73-77). -/
def rsi_at (xs : List ℚ) (i : ℕ) : Option ℚ :=
  match avg_gain_at xs i, avg_loss_at xs i with
  | some g, some l =>
    if l = 0 then (if g = 0 then none else some 100)
    else some (100 - 100 / (1 + g / l))
  | _, _ => none

/-- `Series.ewm(span=s).mean()` at row `i` (lines 91-92): with the default
`adjust=True`, the value is the `(1-α)^k`-weighted average of rows `0..i`
with `α = 2 / (s + 1)`; it is defined at every row. -/
def ewm_at (span : ℕ) (xs : List ℚ) (i : ℕ) : Option ℚ :=
  if i < xs.length then
    let a : ℚ := 2 / (span + 1)
    let wts := (List.range (i + 1)).map (fun k => (1 - a) ^ k)
    let vals := (List.range (i + 1)).map (fun k => (1 - a) ^ k * xs.getD (i - k) 0)
    some (vals.sum / wts.sum)
  else none

/-- `MACD = exp1 - exp2` (line 93). -/
def macd_at (xs : List ℚ) (i : ℕ) : Option ℚ :=
  match ewm_at 12 xs i, ewm_at 26 xs i with
  | some e1, some e2 => some (e1 - e2)
  | _, _ => none

/-- `Series.rolling(window=w).std()` at row `i` (sample std, `ddof=1`);
`sqrt` abstracts the square root. -/
def roll_std_at (sqrt : ℚ → ℚ) (w : ℕ) (xs : List ℚ) (i : ℕ) : Option ℚ :=
  if w ≤ i + 1 ∧ i < xs.length then some (sqrt (sampleVar (window w xs i)))
  else none

/-- `BB_middle = Close.rolling(20).mean()` (line 96). -/
def bb_middle_at (xs : List ℚ) (i : ℕ) : Option ℚ := sma_at 20 xs i

/-- `BB_upper = BB_middle + bb_std * 2` (line 98). -/
def bb_upper_at (sqrt : ℚ → ℚ) (xs : List ℚ) (i : ℕ) : Option ℚ :=
  match bb_middle_at xs i, roll_std_at sqrt 20 xs i with
  | some m, some s => some (m + s * 2)
  | _, _ => none

/-- `BB_lower = BB_middle - bb_std * 2` (line 99). -/
def bb_lower_at (sqrt : ℚ → ℚ) (xs : List ℚ) (i : ℕ) : Option ℚ :=
  match bb_middle_at xs i, roll_std_at sqrt 20 xs i with
  | some m, some s => some (m - s * 2)
  | _, _ => none

/-- `Series.pct_change()` at row `i` (lines 102-103): `NaN` at row 0; at a
zero previous value the float quotient is `NaN` only when the current value
is also zero (`0/0`), otherwise `±inf` — a (junk) value, not a `NaN`, so the
row is *not* dropped; the total rational division stands in for it. -/
def pct_change_at (xs : List ℚ) (i : ℕ) : Option ℚ :=
  if 1 ≤ i ∧ i < xs.length then
    if xs.getD (i - 1) 0 = 0 ∧ xs.getD i 0 = 0 then none
    else some ((xs.getD i 0 - xs.getD (i - 1) 0) / xs.getD (i - 1) 0)
  else none

/-- Row `i` survives `dropna()` (line 106): every derived column of
`get_stock_data` is non-`NaN` there. -/
def row_ok (sqrt : ℚ → ℚ) (close volume : List ℚ) (i : ℕ) : Bool :=
  (sma_at 20 close i).isSome && (sma_at 50 close i).isSome &&
  (rsi_at close i).isSome && (macd_at close i).isSome &&
  (bb_middle_at close i).isSome && (bb_upper_at sqrt close i).isSome &&
  (bb_lower_at sqrt close i).isSome && (pct_change_at close i).isSome &&
  (pct_change_at volume i).isSome

/-- The number of rows of the augmented table returned by `get_stock_data`:
the rows of the raw table that survive `dropna()`. -/
def augmented_len (sqrt : ℚ → ℚ) (close volume : List ℚ) : ℕ :=
  ((List.range close.length).filter (fun i => row_ok sqrt close volume i)).length

/-! ## Portfolio aggregation (`calculate_portfolio_metrics`, lines 227-297) -/

/-- `weights = [item['value'] / total_value for item in portfolio_data]`
(lines 232-233). -/
def calc_weights (values : List ℚ) : List ℚ :=
  values.map (fun v => v / values.sum)

/-- The common (inner-join) row count of the aligned return columns. -/
def minLen (cols : List (List ℚ)) : ℕ :=
  match cols with
  | [] => 0
  | c :: cs => cs.foldl (fun a d => min a d.length) c.length

/-- `portfolio_returns = (returns_df * weights).sum(axis=1)` (line 254):
row `t` is the weight-weighted sum of the columns at `t`.  The columns are
the date-aligned output of the `pd.concat(..., join='inner')` on line 250,
represented positionally (for the identical-index mock data the inner join
keeps every row of each column). -/
def portfolio_returns (weights : List ℚ) (cols : List (List ℚ)) : List ℚ :=
  (List.range (minLen cols)).map (fun t =>
    (List.zipWith (fun w c => w * c.getD t 0) weights cols).sum)

/-- Lines 263-268: `portfolio_variance = portfolio_returns.var() * 252`,
`weighted_individual_variance = sum(weights[i]**2 * returns_df.iloc[:, i].var() * 252)`,
and their quotient (with fallback `1` when the portfolio variance is not
positive).  `values` are the holding values, `cols` the aligned per-symbol
return columns in the same order. -/
def diversification_ratio (values : List ℚ) (cols : List (List ℚ)) : ℚ :=
  let weights := calc_weights values
  let pv := sampleVar (portfolio_returns weights cols) * 252
  let wiv := (List.zipWith (fun w c => w ^ 2 * sampleVar c * 252) weights cols).sum
  if 0 < pv then wiv / pv else 1

/-! ## Theorems -/

/-- C1: for every portfolio risk assessment, the returned `risk_level` is the
fixed threshold function of the accumulated `risk_score` — `score ≥ 6` gives
`aggressive`, `3 ≤ score < 6` gives `moderate`, `score < 3` gives
`conservative` — for *all* inputs, so in particular the intermediate
`risk_level = 'aggressive'` assignments made inside the volatility and
drawdown factor blocks (which `assess_scores` carries) never influence the
returned level. -/
theorem c1_risk_level_deterministic (portfolio_risk : Option RiskMetrics)
    (sector_values : List ℚ) (corr_upper : List ℚ) :
    (assess_portfolio_risk portfolio_risk sector_values corr_upper).risk_level =
      (if 6 ≤ (assess_portfolio_risk portfolio_risk sector_values corr_upper).risk_score
       then "aggressive"
       else if 3 ≤ (assess_portfolio_risk portfolio_risk sector_values corr_upper).risk_score
       then "moderate" else "conservative") := rfl

/-- C3: `calculate_risk_metrics` returns the explicit empty marker (`none`,
the source's `return {}`) exactly on return series of fewer than 30
observations, and a populated `RiskMetrics` record (all nine fields:
mean_return, volatility, sharpe_ratio, max_drawdown, var_95,
expected_shortfall, skewness, kurtosis, beta) on every series with at least
30 observations. -/
theorem c3_risk_metrics_min_samples (sqrt : ℚ → ℚ) (returns : List ℚ) :
    (returns.length < 30 → calculate_risk_metrics sqrt returns = none) ∧
    (30 ≤ returns.length → (calculate_risk_metrics sqrt returns).isSome = true) := by
  constructor
  · intro h
    simp [calculate_risk_metrics, h]
  · intro h
    simp [calculate_risk_metrics, Nat.not_lt.mpr h]

/-- Witness for C3 at concrete inputs: a 30-sample series is populated (and
the hypothesis `30 ≤ length` holds there). -/
theorem c3_witness :
    30 ≤ (List.replicate 30 (0 : ℚ)).length ∧
      (calculate_risk_metrics (fun x => x) (List.replicate 30 (0 : ℚ))).isSome = true :=
  ⟨by decide, (c3_risk_metrics_min_samples (fun x => x) _).2 (by decide)⟩

/-- C5 (code bug): the source reports the hard-coded confidence `0.75`
(line 256, commented `# Mock confidence score`), not the
`max(0.1, 1 - mae/mean_close)` of the specification: at `mae = 1/2`,
`mean_close = 1` the specified formula gives `1/2 ≠ 3/4`. -/
theorem c5_confidence_hardcoded :
    predict_confidence = 3 / 4 ∧ spec_confidence (1 / 2) 1 = 1 / 2 ∧
      spec_confidence (1 / 2) 1 ≠ predict_confidence := by
  refine ⟨rfl, ?_, ?_⟩ <;> norm_num [spec_confidence, predict_confidence]

/-- C9: training is atomic with respect to the model registry.  Whenever
`train_model` fails — data preparation raised, fewer than 100 windows,
unsupported model kind, or a fit/evaluation raise — the registry is returned
unchanged; and on success the only change is the insertion of the freshly
evaluated artifact at its `symbol_modeltype` key. -/
theorem c9_train_atomic (reg : List (String × ModelArtifact))
    (symbol model_type : String) (num_windows : Option ℕ)
    (fit_eval : Option (ℚ × ℚ)) (now : ℕ) :
    (∀ msg, (train_model reg symbol model_type num_windows fit_eval now).2 =
        TrainResult.error msg →
      (train_model reg symbol model_type num_windows fit_eval now).1 = reg) ∧
    (∀ mse mae, (train_model reg symbol model_type num_windows fit_eval now).2 =
        TrainResult.success mse mae →
      (train_model reg symbol model_type num_windows fit_eval now).1 =
        setArtifact reg (symbol ++ "_" ++ model_type) ⟨mse, mae, now⟩) := by
  cases num_windows with
  | none => exact ⟨fun _ _ => rfl, fun mse mae h => by simp [train_model] at h⟩
  | some n =>
    by_cases h1 : n < 100
    · exact ⟨fun _ _ => by simp [train_model, h1],
        fun mse mae h => by simp [train_model, h1] at h⟩
    · by_cases h2 : model_type = "linear" ∨ model_type = "ensemble"
      · cases fit_eval with
        | none => exact ⟨fun _ _ => by simp [train_model, h1, h2],
            fun mse mae h => by simp [train_model, h1, h2] at h⟩
        | some p =>
          obtain ⟨pm, pa⟩ := p
          refine ⟨fun msg h => ?_, fun mse mae h => ?_⟩
          · simp [train_model, h1, h2] at h
          · simp [train_model, h1, h2] at h ⊢
            obtain ⟨h3, h4⟩ := h
            simp [← h3, ← h4]
      · exact ⟨fun _ _ => by simp [train_model, h1, h2],
          fun mse mae h => by simp [train_model, h1, h2] at h⟩

/-- Witness for C9 at a concrete failing input: 50 windows is below the
100-window minimum, the result is the error dict and the registry (here with
one live artifact for the same key) is untouched. -/
theorem c9_witness :
    (train_model [("AAPL_linear", ⟨1, 1, 0⟩)] "AAPL" "linear" (some 50) none 1).1 =
      [("AAPL_linear", ⟨1, 1, 0⟩)] :=
  (c9_train_atomic _ "AAPL" "linear" (some 50) none 1).1
    "Insufficient data for training" rfl

theorem zipWith_self_eq_map {β : Type} (f : ℚ → ℚ → β) (l : List ℚ) :
    List.zipWith f l l = l.map fun a => f a a := by
  induction l with
  | nil => rfl
  | cons x xs ih => simp [ih]

theorem runningMaxAux_of_chain (m : ℚ) (ys : List ℚ)
    (h : List.Chain (· ≤ ·) m ys) : runningMaxAux m ys = ys := by
  induction ys generalizing m with
  | nil => rfl
  | cons y ys ih =>
    obtain ⟨hmy, hch⟩ := List.chain_cons.mp h
    rw [runningMaxAux, max_eq_right hmy, ih y hch]

theorem runningMax_of_chain (l : List ℚ) (h : List.Chain' (· ≤ ·) l) :
    runningMax l = l := by
  cases l with
  | nil => rfl
  | cons x xs => rw [runningMax, runningMaxAux_of_chain x xs h]

theorem ext_min_ne_nan (a b : Ext) (ha : a ≠ Ext.nan) (hb : b ≠ Ext.nan) :
    ext_min a b ≠ Ext.nan := by
  cases a <;> cases b <;> simp_all [ext_min]

theorem ext_le_trans (a b c : Ext) (h1 : ext_le a b = true)
    (h2 : ext_le b c = true) : ext_le a c = true := by
  cases a <;> cases b <;> cases c <;> simp_all [ext_le] <;> linarith

theorem ext_min_le_left (a b : Ext) (ha : a ≠ Ext.nan) (hb : b ≠ Ext.nan) :
    ext_le (ext_min a b) a = true := by
  cases a <;> cases b <;> simp_all [ext_min, ext_le]

theorem foldl_ext_min_le (l : List Ext) (a : Ext) (ha : a ≠ Ext.nan)
    (hl : ∀ y ∈ l, y ≠ Ext.nan) : ext_le (l.foldl ext_min a) a = true := by
  induction l generalizing a with
  | nil => cases a <;> simp_all [ext_le]
  | cons y ys ih =>
    have hy : y ≠ Ext.nan := hl y (List.mem_cons_self y ys)
    have h1 := ih (ext_min a y) (ext_min_ne_nan a y ha hy)
      (fun z hz => hl z (List.mem_cons_of_mem y hz))
    exact ext_le_trans _ _ _ h1 (ext_min_le_left a y ha hy)

theorem foldl_ext_min_zero (l : List Ext) (h : ∀ y ∈ l, y = Ext.fin 0) :
    l.foldl ext_min (Ext.fin 0) = Ext.fin 0 := by
  induction l with
  | nil => rfl
  | cons y ys ih =>
    rw [List.foldl_cons, h y (List.mem_cons_self y ys),
      show ext_min (Ext.fin 0) (Ext.fin 0) = Ext.fin 0 by simp [ext_min]]
    exact ih fun z hz => h z (List.mem_cons_of_mem y hz)

theorem dd_entry_self (c : ℚ) :
    dd_entry c c = if c = 0 then Ext.nan else Ext.fin 0 := by
  rw [dd_entry]
  by_cases hc : c = 0
  · simp [hc]
  · rw [if_neg hc, if_neg hc, sub_self, zero_div]

theorem cumprodAux_zero (l : List ℚ) :
    cumprodAux 0 l = List.replicate l.length 0 := by
  induction l with
  | nil => rfl
  | cons y ys ih =>
    rw [show cumprodAux (0 : ℚ) (y :: ys) = (0 * y) :: cumprodAux (0 * y) ys
        from rfl,
      zero_mul, ih, List.length_cons, List.replicate_succ]

theorem cumprodAux_replicate_one :
    ∀ n, cumprodAux 1 (List.replicate n (1 : ℚ)) = List.replicate n 1 := by
  intro n
  induction n with
  | zero => rfl
  | succ k ih => simp [List.replicate_succ, cumprodAux, ih]

/-- C8 counterexample: at `returns = [-1.0] + [0.0] * 29` — 30 observations,
inside the claim's quantifier — the compounded cumulative path is
identically zero (and in particular non-decreasing), every drawdown entry is
`(0 - 0) / 0 = NaN`, and `drawdown.min()` with `skipna` over an all-NaN
series is NaN: the program's max_drawdown is neither `<= 0` nor `0`. -/
theorem c8_counterexample :
    30 ≤ ((-1 : ℚ) :: List.replicate 29 0).length ∧
      List.Chain' (· ≤ ·) (cum_returns ((-1 : ℚ) :: List.replicate 29 0)) ∧
      max_drawdown ((-1 : ℚ) :: List.replicate 29 0) = Ext.nan ∧
      ext_le (max_drawdown ((-1 : ℚ) :: List.replicate 29 0)) (Ext.fin 0) =
        false := by
  have hcum : cum_returns ((-1 : ℚ) :: List.replicate 29 0) =
      List.replicate 30 0 := by
    have hmap : ((-1 : ℚ) :: List.replicate 29 0).map (fun r => 1 + r) =
        (0 : ℚ) :: List.replicate 29 1 := by
      rw [List.map_cons, List.map_replicate]
      norm_num
    rw [cum_returns, hmap, cumprod,
      show cumprodAux (1 : ℚ) ((0 : ℚ) :: List.replicate 29 1) =
        (1 * 0) :: cumprodAux (1 * 0) (List.replicate 29 1) from rfl]
    norm_num
    rw [cumprodAux_zero, List.length_replicate]
    exact (show (0 : ℚ) :: List.replicate 29 0 = List.replicate 30 0 from rfl)
  have hch0 : List.Chain' (· ≤ ·) (List.replicate 30 (0 : ℚ)) := by
    rw [show List.replicate 30 (0 : ℚ) = 0 :: List.replicate 29 0 from rfl]
    exact List.chain_replicate_of_rel 29 (le_refl (0 : ℚ))
  have hch : List.Chain' (· ≤ ·) (cum_returns ((-1 : ℚ) :: List.replicate 29 0)) := by
    rw [hcum]
    exact hch0
  have hmd : max_drawdown ((-1 : ℚ) :: List.replicate 29 0) = Ext.nan := by
    rw [max_drawdown, drawdowns, hcum, runningMax_of_chain _ hch0,
      zipWith_self_eq_map, List.map_replicate, dd_entry_self, if_pos rfl]
    have hfilter : (List.replicate 30 Ext.nan).filter (fun v => v ≠ Ext.nan) =
        [] := by decide
    rw [dd_min, hfilter]
  refine ⟨by decide, hch, hmd, ?_⟩
  rw [hmd]
  rfl

/-- C8 (amended): unless the very first return is exactly `-1` — which
zeroes the entire cumulative path and turns every drawdown entry into
`0/0 = NaN`, so pandas' skipna minimum is NaN (see the counterexample) —
the claim holds on every series with at least 30 observations: the first
drawdown entry is the finite `(c - c)/c = 0`, so `drawdown.min()` is a
float that is `<= 0` in the IEEE order, and it equals exactly `0` whenever
the cumulative return path is non-decreasing. -/
theorem c8_max_drawdown_amended (returns : List ℚ) (h : 30 ≤ returns.length)
    (h1 : 1 + returns.headI ≠ 0) :
    ext_le (max_drawdown returns) (Ext.fin 0) = true ∧
      (List.Chain' (· ≤ ·) (cum_returns returns) →
        max_drawdown returns = Ext.fin 0) := by
  obtain ⟨x, xs, rfl⟩ : ∃ x xs, returns = x :: xs := by
    cases returns with
    | nil => simp at h
    | cons x xs => exact ⟨x, xs, rfl⟩
  have hx : (1 : ℚ) + x ≠ 0 := by simpa using h1
  have hc1 : (1 : ℚ) * (1 + x) ≠ 0 := by
    rw [one_mul]
    exact hx
  have hc : cum_returns (x :: xs) =
      (1 * (1 + x)) :: cumprodAux (1 * (1 + x)) (xs.map fun r => 1 + r) := by
    simp [cum_returns, cumprod, cumprodAux]
  constructor
  · rw [max_drawdown, drawdowns, hc, runningMax, List.zipWith_cons_cons,
      dd_entry_self, if_neg hc1, dd_min, List.filter_cons, if_pos (by decide)]
    refine foldl_ext_min_le _ _ (by decide) ?_
    intro y hy
    simpa using (List.mem_filter.mp hy).2
  · intro hch
    have hrm := runningMax_of_chain _ hch
    rw [max_drawdown, drawdowns, hrm, zipWith_self_eq_map, hc]
    simp only [List.map_cons]
    rw [dd_entry_self, if_neg hc1, dd_min, List.filter_cons, if_pos (by decide)]
    refine foldl_ext_min_zero _ ?_
    intro y hy
    obtain ⟨hy_mem, hy_ne⟩ := List.mem_filter.mp hy
    obtain ⟨c, hc_mem, rfl⟩ := List.mem_map.mp hy_mem
    by_cases hc0 : c = 0
    · rw [dd_entry_self, if_pos hc0] at hy_ne
      simp at hy_ne
    · rw [dd_entry_self, if_neg hc0]

/-- Witness for C8 (amended) at a concrete input: 30 zero returns satisfy
both hypotheses (first return is 0, not -1), the cumulative path is constant
(hence non-decreasing) and the max drawdown is the finite `0`, which is
`<= 0`. -/
theorem c8_witness :
    30 ≤ (List.replicate 30 (0 : ℚ)).length ∧
      (1 : ℚ) + (List.replicate 30 (0 : ℚ)).headI ≠ 0 ∧
      List.Chain' (· ≤ ·) (cum_returns (List.replicate 30 (0 : ℚ))) ∧
      ext_le (max_drawdown (List.replicate 30 (0 : ℚ))) (Ext.fin 0) = true ∧
      max_drawdown (List.replicate 30 (0 : ℚ)) = Ext.fin 0 := by
  have hcum : cum_returns (List.replicate 30 (0 : ℚ)) = List.replicate 30 1 := by
    rw [cum_returns, List.map_replicate, cumprod]
    norm_num [cumprodAux_replicate_one 30]
  have hch : List.Chain' (· ≤ ·) (cum_returns (List.replicate 30 (0 : ℚ))) := by
    rw [hcum, show List.replicate 30 (1 : ℚ) = 1 :: List.replicate 29 1 from rfl]
    exact List.chain_replicate_of_rel 29 (le_refl (1 : ℚ))
  have hhead : (1 : ℚ) + (List.replicate 30 (0 : ℚ)).headI ≠ 0 := by
    rw [show (List.replicate 30 (0 : ℚ)).headI = 0 from rfl]
    norm_num
  have h0 := c8_max_drawdown_amended (List.replicate 30 (0 : ℚ)) (by decide) hhead
  exact ⟨by decide, hhead, hch, h0.1, h0.2 hch⟩

/-- C10: on any return series with at least 30 observations, the set
`returns[returns <= var_95]` averaged by `es_95` is non-empty (the sample
minimum is always at or below the interpolated 5th percentile), so the
expected shortfall is well-defined, and it never exceeds `var_95`. -/
theorem c10_es_le_var (returns : List ℚ) (h : 30 ≤ returns.length) :
    returns.filter (fun x => x ≤ var_95_calc returns) ≠ [] ∧
      es_95_calc returns ≤ var_95_calc returns := by
  have hsort : List.Sorted (· ≤ ·) (sorted_rets returns) :=
    List.sorted_insertionSort _ returns
  have hperm : List.Perm (sorted_rets returns) returns :=
    List.perm_insertionSort _ returns
  have hslen : (sorted_rets returns).length = returns.length :=
    List.length_insertionSort _ returns
  have h30 : (30 : ℚ) ≤ (returns.length : ℚ) := by exact_mod_cast h
  have hq_nonneg : 0 ≤ pct5_pos returns := by
    rw [pct5_pos]
    apply mul_nonneg <;> linarith
  have hq_le : pct5_pos returns ≤ (returns.length : ℚ) - 1 := by
    rw [pct5_pos]
    nlinarith
  have hfloor_nonneg : (0 : ℤ) ≤ ⌊pct5_pos returns⌋ := Int.floor_nonneg.mpr hq_nonneg
  have hlo_cast : ((pct5_lo returns : ℕ) : ℚ) ≤ pct5_pos returns := by
    rw [pct5_lo]
    have h1 : ((⌊pct5_pos returns⌋.toNat : ℤ) : ℚ) = ((⌊pct5_pos returns⌋ : ℤ) : ℚ) := by
      rw [Int.toNat_of_nonneg hfloor_nonneg]
    push_cast at h1 ⊢
    rw [h1]
    exact Int.floor_le _
  have hceil_le : ⌈pct5_pos returns⌉ ≤ (returns.length : ℤ) - 1 := by
    have h2 : ((returns.length : ℤ) - 1 : ℤ) = ⌈(((returns.length : ℤ) - 1 : ℤ) : ℚ)⌉ := by
      rw [Int.ceil_intCast]
    rw [h2]
    apply Int.ceil_le_ceil
    push_cast
    exact hq_le
  have hhi_lt : pct5_hi returns < (sorted_rets returns).length := by
    rw [hslen, pct5_hi]
    have h1 : ⌈pct5_pos returns⌉.toNat ≤ ((returns.length : ℤ) - 1).toNat :=
      Int.toNat_le_toNat hceil_le
    have h2 : ((returns.length : ℤ) - 1).toNat = returns.length - 1 := by omega
    omega
  have hlohi : pct5_lo returns ≤ pct5_hi returns := by
    rw [pct5_lo, pct5_hi]
    exact Int.toNat_le_toNat (Int.floor_le_ceil _)
  have hlo_lt : pct5_lo returns < (sorted_rets returns).length :=
    lt_of_le_of_lt hlohi hhi_lt
  have hn0 : 0 < (sorted_rets returns).length :=
    lt_of_le_of_lt (Nat.zero_le _) hlo_lt
  have h0lo : (sorted_rets returns).getD 0 0 ≤
      (sorted_rets returns).getD (pct5_lo returns) 0 := by
    rw [List.getD_eq_get _ _ hn0, List.getD_eq_get _ _ hlo_lt]
    exact hsort.rel_get_of_le (by simp)
  have hlohi2 : (sorted_rets returns).getD (pct5_lo returns) 0 ≤
      (sorted_rets returns).getD (pct5_hi returns) 0 := by
    rw [List.getD_eq_get _ _ hlo_lt, List.getD_eq_get _ _ hhi_lt]
    exact hsort.rel_get_of_le (by simpa using hlohi)
  have hv_ge : (sorted_rets returns).getD (pct5_lo returns) 0 ≤
      var_95_calc returns := by
    rw [var_95_calc]
    have : 0 ≤ (pct5_pos returns - pct5_lo returns) *
        ((sorted_rets returns).getD (pct5_hi returns) 0 -
          (sorted_rets returns).getD (pct5_lo returns) 0) :=
      mul_nonneg (by linarith) (by linarith)
    linarith
  have hmin_le : (sorted_rets returns).getD 0 0 ≤ var_95_calc returns :=
    le_trans h0lo hv_ge
  have hmem : (sorted_rets returns).getD 0 0 ∈ returns := by
    rw [List.getD_eq_get _ _ hn0]
    exact hperm.subset ((sorted_rets returns).get_mem _ _)
  have hmemF : (sorted_rets returns).getD 0 0 ∈
      returns.filter (fun x => x ≤ var_95_calc returns) := by
    rw [List.mem_filter]
    exact ⟨hmem, by simpa using hmin_le⟩
  refine ⟨List.ne_nil_of_mem hmemF, ?_⟩
  have hFlen : 0 < (returns.filter (fun x => x ≤ var_95_calc returns)).length :=
    List.length_pos.mpr (List.ne_nil_of_mem hmemF)
  have hall : ∀ x ∈ returns.filter (fun x => x ≤ var_95_calc returns),
      x ≤ var_95_calc returns := by
    intro x hx
    simpa using (List.mem_filter.mp hx).2
  have hsum := List.sum_le_card_nsmul _ _ hall
  rw [es_95_calc, mean, div_le_iff (by exact_mod_cast hFlen)]
  calc (returns.filter (fun x => x ≤ var_95_calc returns)).sum
      ≤ (returns.filter (fun x => x ≤ var_95_calc returns)).length •
          var_95_calc returns := hsum
    _ = var_95_calc returns *
          ((returns.filter (fun x => x ≤ var_95_calc returns)).length : ℚ) := by
        rw [nsmul_eq_mul, mul_comm]

/-- Witness for C10 at a concrete input: a 30-sample series satisfies the
hypothesis, the averaged sub-series is non-empty and the shortfall is
bounded by the percentile. -/
theorem c10_witness :
    30 ≤ (List.replicate 30 (0 : ℚ)).length ∧
      ((List.replicate 30 (0 : ℚ)).filter
        (fun x => x ≤ var_95_calc (List.replicate 30 (0 : ℚ))) ≠ [] ∧
      es_95_calc (List.replicate 30 (0 : ℚ)) ≤
        var_95_calc (List.replicate 30 (0 : ℚ))) :=
  ⟨by decide, c10_es_le_var _ (by decide)⟩

theorem gain_raw_nonneg (xs : List ℚ) (i : ℕ) : 0 ≤ gain_raw_at xs i := by
  rw [gain_raw_at]
  cases diff_at xs i with
  | none => exact le_refl 0
  | some d =>
    by_cases h : 0 < d
    · simpa [h] using le_of_lt h
    · simp [h]

theorem loss_raw_nonneg (xs : List ℚ) (i : ℕ) : 0 ≤ loss_raw_at xs i := by
  rw [loss_raw_at]
  cases diff_at xs i with
  | none => exact le_refl 0
  | some d =>
    by_cases h : d < 0
    · simpa [h] using le_of_lt (neg_pos.mpr h)
    · simp [h]

theorem avg_gain_nonneg (xs : List ℚ) (i : ℕ) (g : ℚ)
    (h : avg_gain_at xs i = some g) : 0 ≤ g := by
  rw [avg_gain_at] at h
  split at h
  · obtain rfl : _ = g := Option.some_injective _ h
    apply div_nonneg _ (by norm_num)
    exact List.sum_nonneg fun x hx => by
      obtain ⟨k, _, rfl⟩ := List.mem_map.mp hx
      exact gain_raw_nonneg xs _
  · exact absurd h (by simp)

theorem avg_loss_nonneg (xs : List ℚ) (i : ℕ) (l : ℚ)
    (h : avg_loss_at xs i = some l) : 0 ≤ l := by
  rw [avg_loss_at] at h
  split at h
  · obtain rfl : _ = l := Option.some_injective _ h
    apply div_nonneg _ (by norm_num)
    exact List.sum_nonneg fun x hx => by
      obtain ⟨k, _, rfl⟩ := List.mem_map.mp hx
      exact loss_raw_nonneg xs _
  · exact absurd h (by simp)

/-- C7: every RSI value the augmentation produces lies in `[0, 100]`, and
when the 14-period average loss is `0` while the average gain is positive,
the float division by zero does not fail the computation: the RSI saturates
at exactly `100` (the `inf` route of `100 - 100/(1 + gain/0)`). -/
theorem c7_rsi_in_range (xs : List ℚ) (i : ℕ) :
    (∀ v, rsi_at xs i = some v → 0 ≤ v ∧ v ≤ 100) ∧
    (∀ g, avg_loss_at xs i = some 0 → avg_gain_at xs i = some g → 0 < g →
      rsi_at xs i = some 100) := by
  constructor
  · intro v hv
    rw [rsi_at] at hv
    cases hg : avg_gain_at xs i with
    | none => rw [hg] at hv; simp at hv
    | some g =>
      cases hl : avg_loss_at xs i with
      | none => rw [hg, hl] at hv; simp at hv
      | some l =>
        rw [hg, hl] at hv
        simp only at hv
        have hg0 : 0 ≤ g := avg_gain_nonneg xs i g hg
        have hl0 : 0 ≤ l := avg_loss_nonneg xs i l hl
        by_cases hlz : l = 0
        · rw [if_pos hlz] at hv
          by_cases hgz : g = 0
          · rw [if_pos hgz] at hv; simp at hv
          · rw [if_neg hgz] at hv
            obtain rfl : (100 : ℚ) = v := Option.some_injective _ hv
            norm_num
        · rw [if_neg hlz] at hv
          obtain rfl : _ = v := Option.some_injective _ hv
          have hlpos : 0 < l := lt_of_le_of_ne hl0 (Ne.symm hlz)
          have hgl : 0 ≤ g / l := div_nonneg hg0 (le_of_lt hlpos)
          have h2 : 100 / (1 + g / l) ≤ 100 := div_le_self (by norm_num) (by linarith)
          have h3 : 0 < 100 / (1 + g / l) := div_pos (by norm_num) (by linarith)
          constructor <;> linarith
  · intro g hl hg hgpos
    rw [rsi_at, hg, hl]
    simp [ne_of_gt hgpos]

/-- Witness for C7 at a concrete input: on the strictly increasing series
`0, 1, ..., 13` the 14-period average loss at row 13 is `0`, the average
gain is `13/14 > 0`, and the RSI saturates at exactly `100` (which is inside
`[0, 100]`). -/
theorem c7_witness :
    rsi_at [0, 1, 2, 3, 4, 5, 6, 7, 8, 9, 10, 11, 12, 13] 13 = some 100 ∧
      (0 : ℚ) ≤ 100 ∧ (100 : ℚ) ≤ 100 := by
  have hl : avg_loss_at [0, 1, 2, 3, 4, 5, 6, 7, 8, 9, 10, 11, 12, 13] 13 =
      some 0 := by
    norm_num [avg_loss_at, loss_raw_at, diff_at, List.range_succ]
  have hg : avg_gain_at [0, 1, 2, 3, 4, 5, 6, 7, 8, 9, 10, 11, 12, 13] 13 =
      some (13 / 14) := by
    norm_num [avg_gain_at, gain_raw_at, diff_at, List.range_succ]
  have h100 := (c7_rsi_in_range [0, 1, 2, 3, 4, 5, 6, 7, 8, 9, 10, 11, 12, 13] 13).2
    (13 / 14) hl hg (by norm_num)
  exact ⟨h100, (c7_rsi_in_range _ 13).1 100 h100⟩

/-- C4 counterexample: for a two-holding portfolio with equal values whose
two return series are identical (hence perfectly correlated, ρ = 1), the
code's `diversification_ratio` is `1/2`, not approximately `1.0` — the
squared-weight numerator `Σ wᵢ² varᵢ 252` halves against the portfolio
variance of the identical series. -/
theorem c4_counterexample :
    diversification_ratio [1, 1] [[1 / 10, -1 / 10], [1 / 10, -1 / 10]] = 1 / 2 ∧
      ¬ |diversification_ratio [1, 1] [[1 / 10, -1 / 10], [1 / 10, -1 / 10]] - 1| ≤
          1 / 10 := by
  have h : diversification_ratio [1, 1] [[1 / 10, -1 / 10], [1 / 10, -1 / 10]] =
      1 / 2 := by
    norm_num [diversification_ratio, calc_weights, minLen, portfolio_returns,
      sampleVar, mean, List.range_succ]
  rw [h]
  rw [show ((1 : ℚ) / 2 - 1) = -(1 / 2) by norm_num, abs_neg,
    abs_of_pos (by norm_num : (0 : ℚ) < 1 / 2)]
  norm_num

/-- C4 (amended): the diversification ratio is
`(Σ wᵢ² varᵢ 252) / (portfolio_variance · 252)` as coded, and for a
two-holding, equal-value portfolio whose two return series are identical
(perfect correlation) it evaluates to exactly `1/2` — the Herfindahl index
`w₁² + w₂²` of the weights — rather than ≈ 1.0. -/
theorem c4_div_ratio_half (r : List ℚ) (v : ℚ) (hv : 0 < v)
    (hvar : 0 < sampleVar r) :
    diversification_ratio [v, v] [r, r] = 1 / 2 := by
  have hvne : v ≠ 0 := ne_of_gt hv
  have hw : calc_weights [v, v] = [1 / 2, 1 / 2] := by
    rw [calc_weights]
    have hsum : ([v, v] : List ℚ).sum = 2 * v := by
      simp
      ring
    have hhalf : v / (2 * v) = 1 / 2 := by
      rw [div_eq_div_iff (by positivity) (by norm_num : (2 : ℚ) ≠ 0)]
      ring
    simp only [List.map_cons, List.map_nil, hsum, hhalf]
  have hminLen : minLen [r, r] = r.length := by simp [minLen]
  have hpr : portfolio_returns [1 / 2, 1 / 2] [r, r] = r := by
    apply List.ext_getElem
    · simp [portfolio_returns, hminLen]
    · intro i h1 h2
      simp only [portfolio_returns, hminLen, List.getElem_map,
        List.getElem_range, List.zipWith_cons_cons, List.zipWith_nil_right,
        List.sum_cons, List.sum_nil]
      rw [List.getD_eq_getElem _ _ h2]
      ring
  rw [diversification_ratio, hw]
  simp only [hpr]
  have hpv : 0 < sampleVar r * 252 := mul_pos hvar (by norm_num)
  rw [if_pos hpv]
  have h252 : (252 : ℚ) ≠ 0 := by norm_num
  have hvarne : sampleVar r ≠ 0 := ne_of_gt hvar
  simp only [List.zipWith_cons_cons, List.zipWith_nil_right, List.sum_cons,
    List.sum_nil]
  field_simp
  ring

/-- Witness for C4 (amended) at a concrete input: equal holding values `2`
and the identical two-sample return column `[1/10, -1/10]` (positive sample
variance) give the ratio `1/2`. -/
theorem c4_witness :
    diversification_ratio [2, 2] [[1 / 10, -1 / 10], [1 / 10, -1 / 10]] = 1 / 2 :=
  c4_div_ratio_half [1 / 10, -1 / 10] 2 (by norm_num)
    (by norm_num [sampleVar, mean])

theorem getLast?_replicate_pos (y : List ℚ) :
    ∀ n, n ≠ 0 → (List.replicate n y).getLast? = some y := by
  intro n
  induction n with
  | zero => intro h; exact absurd rfl h
  | succ k ih =>
    intro _
    cases hk : k with
    | zero => rfl
    | succ j =>
      subst hk
      rw [List.replicate_succ, List.replicate_succ, List.getLast?_cons_cons,
        ← List.replicate_succ]
      exact ih (by omega)

/-- C2 (code bug): the `predict` of `stock_predictor.py` can never return a
forecast.  The model was fitted on flattened 60-row windows (840 features,
`prepare_data` + the reshape in `train_model`), but the loop feeds it the
single last scaled row (14 features, line 227), so the first
`model.predict` call raises; with `days = 0` the loop is skipped and
`inverse_transform` raises on the empty array instead.  Every call —
including the claim's `days = 7` and `days = 0` — yields the error dict
(`none`), never the promised list of `days` (date, price) pairs. -/
theorem c2_predict_always_errors :
    predict_as_trained 7 = none ∧ ∀ days, predict_as_trained days = none := by
  have hall : (List.replicate 60 (List.replicate 14 (1 : ℚ))).all
      (fun r => r.length = trained_scaler.n_features) = true := by
    rw [List.all_eq_true]
    intro r hr
    rw [List.eq_of_mem_replicate hr]
    simp [trained_scaler, num_features]
  have hT : scaler_transform trained_scaler recent_rows =
      some ((List.replicate 60 (List.replicate 14 (1 : ℚ))).map (fun r =>
        List.zipWith (fun x p => x * p.2 + p.1) r
          (trained_scaler.mins.zip trained_scaler.scales))) := by
    rw [scaler_transform, recent_rows, if_neg (by simp), if_pos hall]
  have hmap : (List.replicate 60 (List.replicate 14 (1 : ℚ))).map (fun r =>
      List.zipWith (fun x p => x * p.2 + p.1) r
        (trained_scaler.mins.zip trained_scaler.scales)) =
      List.replicate 60 (List.zipWith (fun x p => x * p.2 + p.1)
        (List.replicate 14 (1 : ℚ))
        (trained_scaler.mins.zip trained_scaler.scales)) := List.map_replicate
  have hlastlen : (List.zipWith (fun x p => x * p.2 + p.1)
      (List.replicate 14 (1 : ℚ))
      (trained_scaler.mins.zip trained_scaler.scales)).length = 14 := by
    rw [List.length_zipWith, List.length_zip _ _]
    simp [trained_scaler, num_features]
  have hpred : model_predict trained_model
      (List.zipWith (fun x p => x * p.2 + p.1) (List.replicate 14 (1 : ℚ))
        (trained_scaler.mins.zip trained_scaler.scales)) = none := by
    rw [model_predict, if_neg]
    rw [hlastlen]
    simp [trained_model, lookback, num_features]
  have hlast : (List.replicate 60 (List.zipWith (fun x p => x * p.2 + p.1)
      (List.replicate 14 (1 : ℚ))
      (trained_scaler.mins.zip trained_scaler.scales))).getLast? =
      some (List.zipWith (fun x p => x * p.2 + p.1) (List.replicate 14 (1 : ℚ))
        (trained_scaler.mins.zip trained_scaler.scales)) :=
    getLast?_replicate_pos _ 60 (by omega)
  have hkey : ∀ days, predict_as_trained days = none := by
    intro days
    rw [predict_as_trained, hT]
    simp only [hmap]
    rw [predict, hlast]
    cases days with
    | zero =>
      simp [predict_loop, scaler_inverse]
    | succ d =>
      simp only [predict_loop, hpred]
  exact ⟨hkey 7, hkey⟩

theorem sum_pos_of_mem (l : List ℚ) (hnn : ∀ x ∈ l, 0 ≤ x) (x : ℚ)
    (hx : x ∈ l) (hxp : 0 < x) : 0 < l.sum := by
  induction l with
  | nil => cases hx
  | cons y ys ih =>
    rw [List.sum_cons]
    rcases List.mem_cons.mp hx with rfl | hmem
    · have : 0 ≤ ys.sum :=
        List.sum_nonneg fun z hz => hnn z (List.mem_cons_of_mem _ hz)
      linarith
    · have hy : 0 ≤ y := hnn y (List.mem_cons_self _ _)
      have := ih (fun z hz => hnn z (List.mem_cons_of_mem _ hz)) hmem
      linarith

theorem avg_window_delta (xs : List ℚ) (i j : ℕ) (h13 : 13 ≤ i)
    (hi : i < xs.length) (hj1 : i - 13 ≤ j) (hj2 : j ≤ i) (hj3 : 1 ≤ j)
    (hne : xs.getD j 0 ≠ xs.getD (j - 1) 0) :
    ∃ g l, avg_gain_at xs i = some g ∧ avg_loss_at xs i = some l ∧
      (0 < g ∨ 0 < l) := by
  have hjlt : j < xs.length := lt_of_le_of_lt hj2 hi
  have hdiff : diff_at xs j = some (xs.getD j 0 - xs.getD (j - 1) 0) := by
    rw [diff_at, if_pos ⟨hj3, hjlt⟩]
  have hag : avg_gain_at xs i =
      some (((List.range 14).map (fun k => gain_raw_at xs (i - 13 + k))).sum / 14) := by
    rw [avg_gain_at, if_pos ⟨h13, hi⟩]
  have hal : avg_loss_at xs i =
      some (((List.range 14).map (fun k => loss_raw_at xs (i - 13 + k))).sum / 14) := by
    rw [avg_loss_at, if_pos ⟨h13, hi⟩]
  refine ⟨_, _, hag, hal, ?_⟩
  have hidx : i - 13 + (j - (i - 13)) = j := by omega
  have hmemrange : j - (i - 13) ∈ List.range 14 := List.mem_range.mpr (by omega)
  rcases lt_or_gt_of_ne (sub_ne_zero.mpr hne) with hneg | hpos
  · right
    apply div_pos _ (by norm_num)
    refine sum_pos_of_mem _ (fun x hx => ?_) (loss_raw_at xs j) ?_ ?_
    · obtain ⟨k, _, rfl⟩ := List.mem_map.mp hx
      exact loss_raw_nonneg xs _
    · exact List.mem_map.mpr ⟨j - (i - 13), hmemrange, by rw [hidx]⟩
    · rw [loss_raw_at, hdiff]
      simp only [hneg, if_true]
      linarith
  · left
    apply div_pos _ (by norm_num)
    refine sum_pos_of_mem _ (fun x hx => ?_) (gain_raw_at xs j) ?_ ?_
    · obtain ⟨k, _, rfl⟩ := List.mem_map.mp hx
      exact gain_raw_nonneg xs _
    · exact List.mem_map.mpr ⟨j - (i - 13), hmemrange, by rw [hidx]⟩
    · rw [gain_raw_at, hdiff]
      simp only [hpos, if_true]

theorem rsi_isSome_of_pos (xs : List ℚ) (i : ℕ) (g l : ℚ)
    (hg : avg_gain_at xs i = some g) (hl : avg_loss_at xs i = some l)
    (h : 0 < g ∨ 0 < l) : (rsi_at xs i).isSome = true := by
  rw [rsi_at, hg, hl]
  simp only
  by_cases hlz : l = 0
  · rw [if_pos hlz]
    have hgpos : 0 < g := by
      rcases h with h | h
      · exact h
      · rw [hlz] at h
        exact absurd h (lt_irrefl 0)
    rw [if_neg (ne_of_gt hgpos)]
    rfl
  · rw [if_neg hlz]
    rfl

theorem filter_range_ge_length (n k : ℕ) :
    ((List.range n).filter (fun i => decide (k ≤ i))).length = n - k := by
  induction n with
  | zero => simp
  | succ m ih =>
    rw [List.range_succ, List.filter_append, List.length_append, ih]
    by_cases h : k ≤ m
    · simp [h]
      omega
    · simp [h]
      omega

theorem getD_pos_of_mem (xs : List ℚ) (j : ℕ) (hj : j < xs.length)
    (hpos : ∀ x ∈ xs, 0 < x) : 0 < xs.getD j 0 := by
  rw [List.getD_eq_getElem _ _ hj]
  exact hpos _ (xs.getElem_mem hj)

/-- C6 (amended): for a raw series of `n ≥ 50` bars with positive closes and
volumes, `get_stock_data`'s augmentation keeps exactly `n - 49` rows — the
49 leading rows lost to the 50-day SMA window — *provided* every 14-delta
RSI window ending at a row `i ≥ 49` contains at least one nonzero price
delta.  (Without that proviso the RSI `0/0` produces an extra `NaN` row that
`dropna` also removes — see the counterexample.) -/
theorem c6_augmented_len (sqrt : ℚ → ℚ) (close volume : List ℚ)
    (hn : 50 ≤ close.length) (hvlen : volume.length = close.length)
    (hcpos : ∀ x ∈ close, 0 < x) (hvpos : ∀ x ∈ volume, 0 < x)
    (hrsi : ∀ i, 49 ≤ i → i < close.length →
      ∃ j, i - 13 ≤ j ∧ j ≤ i ∧ 1 ≤ j ∧
        close.getD j 0 ≠ close.getD (j - 1) 0) :
    augmented_len sqrt close volume = close.length - 49 := by
  rw [augmented_len]
  rw [List.filter_congr (q := fun i => decide (49 ≤ i)) ?_]
  · exact filter_range_ge_length _ _
  intro i hi
  show row_ok sqrt close volume i = decide (49 ≤ i)
  have hi' : i < close.length := List.mem_range.mp hi
  by_cases h49 : 49 ≤ i
  · rw [decide_eq_true h49]
    have hsma20 : (sma_at 20 close i).isSome = true := by
      rw [sma_at, if_pos ⟨by omega, hi'⟩]
      rfl
    have hsma50 : (sma_at 50 close i).isSome = true := by
      rw [sma_at, if_pos ⟨by omega, hi'⟩]
      rfl
    have hrsiS : (rsi_at close i).isSome = true := by
      obtain ⟨j, hj1, hj2, hj3, hjne⟩ := hrsi i h49 hi'
      obtain ⟨g, l, hg, hl, hgl⟩ :=
        avg_window_delta close i j (by omega) hi' hj1 hj2 hj3 hjne
      exact rsi_isSome_of_pos close i g l hg hl hgl
    have hmacd : (macd_at close i).isSome = true := by
      simp [macd_at, ewm_at, hi']
    have hstd : (roll_std_at sqrt 20 close i).isSome = true := by
      rw [roll_std_at, if_pos ⟨by omega, hi'⟩]
      rfl
    have hbbm : (bb_middle_at close i).isSome = true := by
      rw [bb_middle_at]
      exact hsma20
    have hbbu : (bb_upper_at sqrt close i).isSome = true := by
      rw [bb_upper_at]
      obtain ⟨m, hm⟩ := Option.isSome_iff_exists.mp hbbm
      obtain ⟨s, hs⟩ := Option.isSome_iff_exists.mp hstd
      rw [hm, hs]
      rfl
    have hbbl : (bb_lower_at sqrt close i).isSome = true := by
      rw [bb_lower_at]
      obtain ⟨m, hm⟩ := Option.isSome_iff_exists.mp hbbm
      obtain ⟨s, hs⟩ := Option.isSome_iff_exists.mp hstd
      rw [hm, hs]
      rfl
    have hpcc : (pct_change_at close i).isSome = true := by
      rw [pct_change_at, if_pos ⟨by omega, hi'⟩, if_neg]
      · rfl
      · rintro ⟨h0, -⟩
        exact absurd h0
          (ne_of_gt (getD_pos_of_mem close (i - 1) (by omega) hcpos))
    have hpcv : (pct_change_at volume i).isSome = true := by
      rw [pct_change_at, if_pos ⟨by omega, by omega⟩, if_neg]
      · rfl
      · rintro ⟨h0, -⟩
        exact absurd h0
          (ne_of_gt (getD_pos_of_mem volume (i - 1) (by omega) hvpos))
    simp [row_ok, hsma20, hsma50, hrsiS, hmacd, hbbm, hbbu, hbbl, hpcc, hpcv]
  · rw [decide_eq_false h49]
    have hsma50 : (sma_at 50 close i).isSome = false := by
      rw [sma_at, if_neg]
      · rfl
      · rintro ⟨h50, -⟩
        omega
    simp [row_ok, hsma50]

theorem gain_raw_const_zero (j : ℕ) :
    gain_raw_at (List.replicate 50 (1 : ℚ)) j = 0 := by
  rw [gain_raw_at]
  cases hd : diff_at (List.replicate 50 (1 : ℚ)) j with
  | none => rfl
  | some d =>
    rw [diff_at] at hd
    split at hd
    case isTrue h =>
      have hj : j < 50 := by
        have := h.2
        rwa [List.length_replicate] at this
      have e1 : (List.replicate 50 (1 : ℚ)).getD j 0 = 1 := by
        rw [List.getD_eq_getElem _ _ (by rw [List.length_replicate]; omega)]
        rw [List.getElem_replicate]
      have e2 : (List.replicate 50 (1 : ℚ)).getD (j - 1) 0 = 1 := by
        rw [List.getD_eq_getElem _ _ (by rw [List.length_replicate]; omega)]
        rw [List.getElem_replicate]
      obtain rfl : _ = d := Option.some_injective _ hd
      rw [e1, e2]
      norm_num
    case isFalse h => exact absurd hd (by simp)

theorem loss_raw_const_zero (j : ℕ) :
    loss_raw_at (List.replicate 50 (1 : ℚ)) j = 0 := by
  rw [loss_raw_at]
  cases hd : diff_at (List.replicate 50 (1 : ℚ)) j with
  | none => rfl
  | some d =>
    rw [diff_at] at hd
    split at hd
    case isTrue h =>
      have hj : j < 50 := by
        have := h.2
        rwa [List.length_replicate] at this
      have e1 : (List.replicate 50 (1 : ℚ)).getD j 0 = 1 := by
        rw [List.getD_eq_getElem _ _ (by rw [List.length_replicate]; omega)]
        rw [List.getElem_replicate]
      have e2 : (List.replicate 50 (1 : ℚ)).getD (j - 1) 0 = 1 := by
        rw [List.getD_eq_getElem _ _ (by rw [List.length_replicate]; omega)]
        rw [List.getElem_replicate]
      obtain rfl : _ = d := Option.some_injective _ hd
      rw [e1, e2]
      norm_num
    case isFalse h => exact absurd hd (by simp)

theorem rsi_const_none (i : ℕ) :
    rsi_at (List.replicate 50 (1 : ℚ)) i = none := by
  by_cases h : 13 ≤ i ∧ i < 50
  · have hg : avg_gain_at (List.replicate 50 (1 : ℚ)) i = some 0 := by
      rw [avg_gain_at, if_pos ⟨h.1, by rw [List.length_replicate]; exact h.2⟩]
      congr 1
      rw [List.sum_eq_zero, zero_div]
      intro x hx
      obtain ⟨k, -, rfl⟩ := List.mem_map.mp hx
      exact gain_raw_const_zero _
    have hl : avg_loss_at (List.replicate 50 (1 : ℚ)) i = some 0 := by
      rw [avg_loss_at, if_pos ⟨h.1, by rw [List.length_replicate]; exact h.2⟩]
      congr 1
      rw [List.sum_eq_zero, zero_div]
      intro x hx
      obtain ⟨k, -, rfl⟩ := List.mem_map.mp hx
      exact loss_raw_const_zero _
    rw [rsi_at, hg, hl]
    simp
  · have hg : avg_gain_at (List.replicate 50 (1 : ℚ)) i = none := by
      rw [avg_gain_at, if_neg]
      simpa using h
    rw [rsi_at, hg]

/-- C6 counterexample: a constant series of 50 bars (closes and volumes all
`1`) makes every 14-period delta window all-zero, so the RSI is `0/0 = NaN`
on every row; `dropna` then removes every row and the augmentation returns
0 rows, not `len(raw) - 49 = 1` as the claim demands. -/
theorem c6_counterexample :
    50 ≤ (List.replicate 50 (1 : ℚ)).length ∧
      (List.replicate 50 (1 : ℚ)).length - 49 = 1 ∧
      augmented_len (fun x => x) (List.replicate 50 (1 : ℚ))
        (List.replicate 50 (1 : ℚ)) = 0 := by
  refine ⟨by simp, by simp, ?_⟩
  rw [augmented_len]
  have hnil : (List.range (List.replicate 50 (1 : ℚ)).length).filter
      (fun i => row_ok (fun x => x) (List.replicate 50 (1 : ℚ))
        (List.replicate 50 (1 : ℚ)) i) = [] := by
    rw [List.filter_eq_nil_iff]
    intro i _
    intro hcontra
    rw [row_ok] at hcontra
    simp only [Bool.and_eq_true] at hcontra
    have hr := hcontra.1.1.1.1.1.1.2
    rw [rsi_const_none i] at hr
    exact absurd hr (by simp)
  rw [hnil]
  rfl

/-- Witness for C6 (amended) at a concrete input: the strictly increasing
series `1, 2, ..., 50` satisfies every hypothesis (50 bars, positive closes
and volumes, a nonzero delta in every RSI window at rows ≥ 49) and the
augmentation keeps exactly `50 - 49 = 1` row. -/
theorem c6_witness :
    augmented_len (fun x => x) ((List.range 50).map (fun k : ℕ => ((k : ℚ) + 1)))
      ((List.range 50).map (fun k : ℕ => ((k : ℚ) + 1))) = 1 := by
  have hlen : ((List.range 50).map (fun k : ℕ => ((k : ℚ) + 1))).length = 50 := by
    rw [List.length_map, List.length_range]
  have hget : ∀ j, j < 50 →
      ((List.range 50).map (fun k : ℕ => ((k : ℚ) + 1))).getD j 0 = (j : ℚ) + 1 := by
    intro j hj
    rw [List.getD_eq_getElem _ _ (by rw [hlen]; exact hj)]
    rw [List.getElem_map, List.getElem_range]
  have hpos : ∀ x ∈ (List.range 50).map (fun k : ℕ => ((k : ℚ) + 1)), 0 < x := by
    intro x hx
    obtain ⟨k, -, rfl⟩ := List.mem_map.mp hx
    have : (0 : ℚ) ≤ (k : ℚ) := Nat.cast_nonneg k
    linarith
  have h := c6_augmented_len (fun x => x) _ _ (by rw [hlen]) rfl hpos hpos ?_
  · rw [hlen] at h
    simpa using h
  · intro i h49 hilen
    have hi50 : i < 50 := by rwa [hlen] at hilen
    refine ⟨i, by omega, le_refl i, by omega, ?_⟩
    rw [hget i hi50, hget (i - 1) (by omega)]
    have : ((i - 1 : ℕ) : ℚ) = (i : ℚ) - 1 := by
      rw [Nat.cast_sub (by omega)]
      norm_num
    rw [this]
    intro hcontra
    have : (i : ℚ) = (i : ℚ) - 1 := by linarith
    linarith

end AIServices
